import Mathlib

/-!
Verification of the Tetris engine in `tetris.py`.

The definitions below are a shallow embedding of the source: the
configuration constants, the piece catalog, the board utilities
(`collide`, `merge`, `clear_lines`), the `Tetris` class state and its
methods (`find_spawn_x_order`, `spawn_new`, `rotate_piece`, `move`,
`soft_drop`, `hard_drop`, `lock_piece`) and the command dispatch of the
`main` loop.  Python lists of ints become `List Nat`, board coordinates
become `Int` (they may be negative above the hidden rows), and the two
sources of effects — the random next-piece draw and the `save_stats`
call — become an explicit draw argument and a counter of save calls.
-/

-- --- CONFIG ---
def COLS : Nat := 10
def VISIBLE_ROWS : Nat := 20
def HIDDEN_ROWS : Nat := 4
def TOTAL_ROWS : Nat := VISIBLE_ROWS + HIDDEN_ROWS

/-- The seven tetromino types. -/
inductive PieceType
  | I | J | L | O | S | T | Z
deriving DecidableEq, Repr

/-- Tetromino shapes (as integer codes to index COLORS). -/
def SHAPES : PieceType → List (List Nat)
  | .I => [[0,0,0,0],
           [1,1,1,1],
           [0,0,0,0],
           [0,0,0,0]]
  | .J => [[2,0,0],
           [2,2,2],
           [0,0,0]]
  | .L => [[0,0,3],
           [3,3,3],
           [0,0,0]]
  | .O => [[4,4],
           [4,4]]
  | .S => [[0,5,5],
           [5,5,0],
           [0,0,0]]
  | .T => [[0,6,0],
           [6,6,6],
           [0,0,0]]
  | .Z => [[7,7,0],
           [0,7,7],
           [0,0,0]]

/-- Python's `zip(*rows)`: truncating transpose, length is the minimum
row length (empty for no rows). -/
def zipStar (rows : List (List Nat)) : List (List Nat) :=
  match rows.map List.length with
  | [] => []
  | l :: ls =>
    (List.range (ls.foldl Nat.min l)).map (fun i => rows.map (fun r => r.getD i 0))

/-- `rotate(shape)`: `[list(row) for row in zip(*shape[::-1])]`. -/
def rotate (shape : List (List Nat)) : List (List Nat) :=
  zipStar shape.reverse

/-- `new_board()`: empty board with TOTAL_ROWS rows (hidden + visible). -/
def new_board : List (List Nat) :=
  List.replicate TOTAL_ROWS (List.replicate COLS 0)

/-- `collide(board, shape, offset)`: True if shape placed at offset
collides with walls/floor or existing blocks. -/
def collide (board shape : List (List Nat)) (offX offY : Int) : Bool :=
  (List.range shape.length).any fun sy =>
    let row := shape.getD sy []
    (List.range row.length).any fun sx =>
      row.getD sx 0 != 0 &&
        (let bx : Int := offX + sx
         let brow : Int := offY + sy
         -- horizontal out of bounds
         decide (bx < 0) || decide ((COLS : Int) ≤ bx) ||
         -- below bottom
         decide ((TOTAL_ROWS : Int) ≤ brow) ||
         -- inside stored board and cell occupied
         (decide (0 ≤ brow) && (board.getD brow.toNat []).getD bx.toNat 0 != 0))

/-- Replace the cell at row `r`, column `c` of the board. -/
def setCell (board : List (List Nat)) (r c : Nat) (v : Nat) : List (List Nat) :=
  board.set r ((board.getD r []).set c v)

/-- `merge(shape, board, offset)`: write shape into board at offset.
Only writes cells with `0 <= by < TOTAL_ROWS and 0 <= bx < COLS`. -/
def merge (shape board : List (List Nat)) (offX offY : Int) : List (List Nat) :=
  (List.range shape.length).foldl
    (fun b sy =>
      let row := shape.getD sy []
      (List.range row.length).foldl
        (fun b sx =>
          let cell := row.getD sx 0
          if cell ≠ 0 then
            let brow : Int := offY + sy
            let bx : Int := offX + sx
            if 0 ≤ brow ∧ brow < TOTAL_ROWS ∧ 0 ≤ bx ∧ bx < COLS then
              setCell b brow.toNat bx.toNat cell
            else b
          else b)
        b)
    board

/-- `clear_lines(board)`: drop completely filled rows, prepend that many
empty rows at index 0.  Returns `(new_board, cleared_count)`. -/
def clear_lines (board : List (List Nat)) : List (List Nat) × Nat :=
  let new_rows := board.filter (fun row => row.any (fun cell => cell == 0))
  let cleared := TOTAL_ROWS - new_rows.length
  (List.replicate cleared (List.replicate COLS 0) ++ new_rows, cleared)

-- ----------------- Game -----------------

/-- The mutable fields of the `Tetris` class.  `saves` counts the calls
to `save_stats` made so far (the persistence side effect). -/
structure GameState where
  board : List (List Nat)
  score : Nat
  level : Nat
  lines : Nat
  high_level : Nat
  high_lines : Nat
  game_over : Bool
  paused : Bool
  current_type : PieceType
  current_shape : List (List Nat)
  next_type : PieceType
  x : Int
  y : Int
  saves : Nat
deriving DecidableEq, Repr

namespace Tetris

/-- `find_spawn_x_order(shape_width)`: center column first, then probe
outward alternating left/right, keeping candidates in range. -/
def find_spawn_x_order (shape_width : Nat) : List Int :=
  let center : Int := Int.fdiv ((COLS : Int) - shape_width) 2
  let order : List Int :=
    center :: (List.range' 1 (COLS - 1)).flatMap (fun i =>
      let left := center - (i : Int)
      let right := center + (i : Int)
      (if 0 ≤ left then [left] else []) ++
      (if right ≤ (COLS : Int) - shape_width ∧ right ≠ left then [right] else []))
  order.filter (fun cx => decide (0 ≤ cx) && decide (cx ≤ (COLS : Int) - shape_width))

/-- `spawn_new(self)`: the next piece becomes active, a fresh next type is
drawn (`draw`), and the spawn position is searched; on failure the game
ends and the high scores are updated and possibly saved. -/
def spawn_new (s : GameState) (draw : PieceType) : GameState :=
  let shape := SHAPES s.next_type
  let s0 := { s with current_type := s.next_type, current_shape := shape, next_type := draw }
  let shape_h := shape.length
  let shape_w := (shape.headD []).length
  let spawn_y : Int := if (HIDDEN_ROWS : Int) - shape_h < 0 then 0 else (HIDDEN_ROWS : Int) - shape_h
  match (find_spawn_x_order shape_w).find? (fun cx => !(collide s.board shape cx spawn_y)) with
  | some spawn_x => { s0 with x := spawn_x, y := spawn_y }
  | none =>
    -- no valid spawn position: game over, update highs, save if changed
    let s2 := { s0 with game_over := true,
                        high_level := if s.high_level < s.level then s.level else s.high_level,
                        high_lines := if s.high_lines < s.lines then s.lines else s.high_lines }
    if s.high_level < s.level || s.high_lines < s.lines then
      { s2 with saves := s2.saves + 1 }
    else s2

/-- `rotate_piece(self)`. -/
def rotate_piece (s : GameState) : GameState :=
  let new_shape := rotate s.current_shape
  if !(collide s.board new_shape s.x s.y) then { s with current_shape := new_shape } else s

/-- `move(self, dx)`. -/
def move (s : GameState) (dx : Int) : GameState :=
  if !(collide s.board s.current_shape (s.x + dx) s.y) then { s with x := s.x + dx } else s

/-- `lock_piece(self)`: merge, clear lines, update counters and highs,
then spawn the next piece. -/
def lock_piece (s : GameState) (draw : PieceType) : GameState :=
  let cl := clear_lines (merge s.current_shape s.board s.x s.y)
  let cleared := cl.2
  let s1 := { s with board := cl.1 }
  let s2 :=
    if cleared ≠ 0 then
      let lines' := s.lines + cleared
      let level' := 1 + lines' / 10
      let s3 := { s1 with lines := lines',
                          score := s.score + 100 * cleared * s.level,
                          level := level',
                          high_lines := if s.high_lines < lines' then lines' else s.high_lines,
                          high_level := if s.high_level < level' then level' else s.high_level }
      -- save_stats when either high counter improved
      if s.high_lines < lines' || s.high_level < level' then
        { s3 with saves := s3.saves + 1 }
      else s3
    else s1
  spawn_new s2 draw

/-- `soft_drop(self)`: one gravity step; `true` means still falling,
`false` means the piece locked. -/
def soft_drop (s : GameState) (draw : PieceType) : GameState × Bool :=
  if !(collide s.board s.current_shape s.x (s.y + 1)) then
    ({ s with y := s.y + 1 }, true)
  else
    (lock_piece s draw, false)

/-- The `while not collide(...): y += 1` loop of `hard_drop`, with
explicit fuel.  Returns the final `y`. -/
def descend (board shape : List (List Nat)) (offX : Int) : Nat → Int → Int
  | 0, y => y
  | fuel + 1, y =>
    if collide board shape offX (y + 1) then y
    else descend board shape offX fuel (y + 1)

/-- `hard_drop(self)`: fall until blocked, then lock.  `TOTAL_ROWS` fuel
is enough for every state the game produces (see the termination lemmas). -/
def hard_drop (s : GameState) (draw : PieceType) : GameState :=
  lock_piece { s with y := descend s.board s.current_shape s.x TOTAL_ROWS s.y } draw

/-- `__init__`: empty board, zeroed counters, loaded high scores
(`hl`, `hn`), first two random draws `d0` (next type) and `d1`. -/
def init (hl hn : Nat) (d0 d1 : PieceType) : GameState :=
  spawn_new
    { board := new_board, score := 0, level := 1, lines := 0,
      high_level := hl, high_lines := hn, game_over := false, paused := false,
      current_type := d0, current_shape := [], next_type := d0,
      x := 0, y := 0, saves := 0 } d1

end Tetris

-- ----------------- Commands -----------------

/-- The raw engine operations of the `Tetris` class (a piece draw
accompanies every operation that may respawn). -/
inductive EngineCmd
  | move (dx : Int)
  | rot
  | soft (draw : PieceType)
  | hard (draw : PieceType)
  | lock (draw : PieceType)
  | reset (draw : PieceType)
deriving DecidableEq, Repr

namespace Tetris

/-- The `R` key of the main loop: reset board and counters, keep the
high scores (and the `paused` flag), then spawn. -/
def reset (s : GameState) (draw : PieceType) : GameState :=
  spawn_new
    { s with board := new_board, score := 0, level := 1, lines := 0, game_over := false }
    draw

/-- Apply one raw engine operation. -/
def applyEngineCmd (s : GameState) : EngineCmd → GameState
  | .move dx => move s dx
  | .rot => rotate_piece s
  | .soft d => (soft_drop s d).1
  | .hard d => hard_drop s d
  | .lock d => lock_piece s d
  | .reset d => reset s d

/-- Apply a sequence of raw engine operations. -/
def applyEngineCmds (cmds : List EngineCmd) (s : GameState) : GameState :=
  cmds.foldl applyEngineCmd s

/-- `update(self)`: the gravity tick. -/
def update (s : GameState) (draw : PieceType) : GameState :=
  if s.game_over || s.paused then s else (soft_drop s draw).1

/-- Applying `soft_drop` repeatedly (with fuel) until it reports
"locked". -/
def soft_drop_until_locked (draw : PieceType) : Nat → GameState → GameState
  | 0, s => s
  | fuel + 1, s =>
    match soft_drop s draw with
    | (s', true) => soft_drop_until_locked draw fuel s'
    | (s', false) => s'

end Tetris

-- ----------------- Main loop -----------------

/-- The game status abstraction of §3 of the spec: the `game_over` flag
dominates the `paused` flag. -/
inductive Status
  | running | paused | gameOver
deriving DecidableEq, Repr

/-- Status of a state: GameOver if `game_over`, else Paused if `paused`,
else Running. -/
def status (s : GameState) : Status :=
  if s.game_over then .gameOver else if s.paused then .paused else .running

/-- The commands the `main` event loop dispatches on (quit aside, which
just exits the process). -/
inductive MainCmd
  | keyD
  | keyS
  | keyR (draw : PieceType)
  | keyP
  | keyLeft
  | keyRight
  | keyUp
  | keyDown (draw : PieceType)
  | keySpace (draw : PieceType)
  | tick (draw : PieceType)
deriving DecidableEq, Repr

/-- One iteration of the `main` keyboard/timer dispatch.  `D` only
prints, `S` force-saves, `R` resets, `P` toggles pause unconditionally,
and the gameplay keys and the gravity tick are gated on
`not game_over and not paused`. -/
def stepMain (c : MainCmd) (s : GameState) : GameState :=
  match c with
  | .keyD => s
  | .keyS => { s with saves := s.saves + 1 }
  | .keyR d => Tetris.reset s d
  | .keyP => { s with paused := !s.paused }
  | .keyLeft => if !s.game_over && !s.paused then Tetris.move s (-1) else s
  | .keyRight => if !s.game_over && !s.paused then Tetris.move s 1 else s
  | .keyUp => if !s.game_over && !s.paused then Tetris.rotate_piece s else s
  | .keyDown d => if !s.game_over && !s.paused then (Tetris.soft_drop s d).1 else s
  | .keySpace d => if !s.game_over && !s.paused then Tetris.hard_drop s d else s
  | .tick d => if !s.paused && !s.game_over then Tetris.update s d else s

/-- Run a list of main-loop commands. -/
def runMain (cmds : List MainCmd) (s : GameState) : GameState :=
  cmds.foldl (fun s c => stepMain c s) s

-- ----------------- Specification-side definitions -----------------

/-- The collision condition as the spec words it: some nonzero shape
cell maps to a board coordinate that is horizontally out of bounds,
below the bottom, or (when its row is ≥ 0) on an occupied cell. -/
def collideCondition (board shape : List (List Nat)) (offX offY : Int) : Prop :=
  ∃ sy, sy < shape.length ∧ ∃ sx, sx < (shape.getD sy []).length ∧
    (shape.getD sy []).getD sx 0 ≠ 0 ∧
    (offX + sx < 0 ∨ (COLS : Int) ≤ offX + sx ∨ (TOTAL_ROWS : Int) ≤ offY + sy ∨
     (0 ≤ offY + sy ∧ (board.getD (offY + sy).toNat []).getD (offX + sx).toNat 0 ≠ 0))

/-- `collide` returns true exactly on the condition of the spec. -/
theorem collide_eq_true_iff (board shape : List (List Nat)) (offX offY : Int) :
    collide board shape offX offY = true ↔ collideCondition board shape offX offY := by
  simp only [collide, collideCondition, List.any_eq_true, List.mem_range,
    Bool.and_eq_true, Bool.or_eq_true, bne_iff_ne, ne_eq, decide_eq_true_eq]
  constructor
  · rintro ⟨sy, hsy, sx, hsx, hcell, hdisj⟩
    exact ⟨sy, hsy, sx, hsx, hcell, by tauto⟩
  · rintro ⟨sy, hsy, sx, hsx, hcell, hdisj⟩
    exact ⟨sy, hsy, sx, hsx, hcell, by tauto⟩

-- ----------------- Claims -----------------

/-- **C9.** For each of the 7 catalog shape matrices, applying the
generic rotate transform (reverse the rows, then transpose) four times
yields exactly the original matrix. -/
theorem rotate_four_times_id (t : PieceType) :
    rotate (rotate (rotate (rotate (SHAPES t)))) = SHAPES t := by
  cases t <;> rfl

/-- **C1.** For every board of TOTAL_ROWS × COLS cells, `collide` returns
true iff some nonzero cell of the shape maps to a coordinate `(bx, by)`
with `bx < 0`, `bx ≥ COLS`, `by ≥ TOTAL_ROWS`, or `by ≥ 0` with
`board[by][bx]` nonzero; a nonzero cell with negative row never by
itself causes a collision. -/
theorem collide_spec (board shape : List (List Nat)) (offX offY : Int)
    (hb : board.length = TOTAL_ROWS) (hr : ∀ row ∈ board, row.length = COLS) :
    collide board shape offX offY = true ↔ collideCondition board shape offX offY :=
  collide_eq_true_iff board shape offX offY

/-- Witness for C1 at a concrete input: a single cell placed one column
left of the board collides. -/
theorem collide_spec_witness :
    collide new_board [[1]] (-1) 0 = true ↔ collideCondition new_board [[1]] (-1) 0 :=
  collide_spec new_board [[1]] (-1) 0 (by decide) (by decide)

/-- A 24-row board whose rows 2 and 5 are completely filled and whose
other rows are partially filled. -/
def exampleBoard : List (List Nat) :=
  (List.range TOTAL_ROWS).map fun i =>
    if i = 2 ∨ i = 5 then List.replicate COLS 1 else 1 :: List.replicate (COLS - 1) 0

/-- **C2.** `clear_lines` removes exactly the full rows (those with no
zero cell), prepends that many all-zero rows at index 0, preserves the
TOTAL_ROWS height, and keeps every non-full row's contents and relative
order. -/
theorem clear_lines_spec (board : List (List Nat)) (hb : board.length = TOTAL_ROWS) :
    (clear_lines board).2 = (board.filter fun row => !(row.any fun cell => cell == 0)).length ∧
    (clear_lines board).1.length = TOTAL_ROWS ∧
    (clear_lines board).1 =
      List.replicate (clear_lines board).2 (List.replicate COLS 0) ++
        board.filter (fun row => row.any fun cell => cell == 0) := by
  have hpart :=
    board.length_eq_length_filter_add (fun row => row.any fun cell => cell == 0)
  have hle := List.length_filter_le (fun row => row.any fun cell => cell == 0) board
  refine ⟨?_, ?_, rfl⟩
  · simp only [clear_lines]
    omega
  · simp only [clear_lines, List.length_append, List.length_replicate]
    omega

/-- The §3 progression invariant: `level = 1 + floor(lines / 10)`. -/
def levelInvariant (s : GameState) : Prop :=
  s.level = 1 + s.lines / 10

/-- `spawn_new` never changes score, level or lines. -/
theorem spawn_new_counters (s : GameState) (d : PieceType) :
    (Tetris.spawn_new s d).score = s.score ∧ (Tetris.spawn_new s d).level = s.level ∧
    (Tetris.spawn_new s d).lines = s.lines := by
  simp only [Tetris.spawn_new]
  repeat' split
  all_goals exact ⟨rfl, rfl, rfl⟩

/-- `lock_piece` (unconditionally) re-establishes the level invariant. -/
theorem lock_piece_invariant (s : GameState) (d : PieceType) (h : levelInvariant s) :
    levelInvariant (Tetris.lock_piece s d) := by
  unfold Tetris.lock_piece
  dsimp only
  split
  case isTrue hc =>
    split <;>
      simp only [levelInvariant, (spawn_new_counters _ d).2.1, (spawn_new_counters _ d).2.2]
  case isFalse hc =>
    simpa only [levelInvariant, (spawn_new_counters _ d).2.1, (spawn_new_counters _ d).2.2]
      using h

/-- Every raw engine operation preserves the level invariant. -/
theorem applyEngineCmd_invariant (s : GameState) (c : EngineCmd) (h : levelInvariant s) :
    levelInvariant (Tetris.applyEngineCmd s c) := by
  cases c with
  | move dx =>
    simp only [Tetris.applyEngineCmd, Tetris.move]
    split <;> exact h
  | rot =>
    simp only [Tetris.applyEngineCmd, Tetris.rotate_piece]
    split <;> exact h
  | soft d =>
    simp only [Tetris.applyEngineCmd, Tetris.soft_drop]
    split
    · exact h
    · exact lock_piece_invariant _ d h
  | hard d =>
    exact lock_piece_invariant _ d h
  | lock d =>
    exact lock_piece_invariant s d h
  | reset d =>
    simp only [Tetris.applyEngineCmd, Tetris.reset, levelInvariant,
      (spawn_new_counters _ d).2.1, (spawn_new_counters _ d).2.2]

/-- **C3.** In every engine state reachable from construction by any
sequence of operations (move, rotate, soft drop, hard drop, lock,
reset), `level = 1 + floor(lines / 10)`. -/
theorem level_invariant_reachable (hl hn : Nat) (d0 d1 : PieceType) (cmds : List EngineCmd) :
    (Tetris.applyEngineCmds cmds (Tetris.init hl hn d0 d1)).level =
      1 + (Tetris.applyEngineCmds cmds (Tetris.init hl hn d0 d1)).lines / 10 := by
  have hinit : levelInvariant (Tetris.init hl hn d0 d1) := by
    simp only [Tetris.init, levelInvariant,
      (spawn_new_counters _ d1).2.1, (spawn_new_counters _ d1).2.2]
  suffices h : ∀ (cs : List EngineCmd) (s : GameState), levelInvariant s →
      levelInvariant (Tetris.applyEngineCmds cs s) from h cmds _ hinit
  intro cs
  induction cs with
  | nil => intro s hs; exact hs
  | cons c cs ih =>
    intro s hs
    exact ih _ (applyEngineCmd_invariant s c hs)

/-- **C6.** A lock that clears `c ≥ 1` rows at level `L` adds exactly
`100 * c * L` to the score and `c` to the lines counter, then recomputes
the level as `1 + lines / 10`; a lock that clears nothing leaves score,
lines and level unchanged. -/
theorem lock_piece_scoring (s : GameState) (d : PieceType) (c : Nat)
    (hc : c = (clear_lines (merge s.current_shape s.board s.x s.y)).2) :
    (1 ≤ c →
      (Tetris.lock_piece s d).score = s.score + 100 * c * s.level ∧
      (Tetris.lock_piece s d).lines = s.lines + c ∧
      (Tetris.lock_piece s d).level = 1 + (s.lines + c) / 10) ∧
    (c = 0 →
      (Tetris.lock_piece s d).score = s.score ∧
      (Tetris.lock_piece s d).lines = s.lines ∧
      (Tetris.lock_piece s d).level = s.level) := by
  subst hc
  simp only [Tetris.lock_piece]
  split
  case isTrue hne =>
    refine ⟨fun _ => ?_, fun h0 => absurd h0 hne⟩
    split <;>
      exact ⟨(spawn_new_counters _ d).1, (spawn_new_counters _ d).2.2,
        (spawn_new_counters _ d).2.1⟩
  case isFalse hne =>
    have h0 : (clear_lines (merge s.current_shape s.board s.x s.y)).2 = 0 := by
      by_contra hx; exact hne hx
    refine ⟨fun h1 => absurd h0 (by omega), fun _ => ?_⟩
    exact ⟨(spawn_new_counters _ d).1, (spawn_new_counters _ d).2.2,
      (spawn_new_counters _ d).2.1⟩

/-- A state about to lock a 3×1 vertical bar that completes the bottom
three rows, at level 2. -/
def lockWitnessState : GameState :=
  { board := List.replicate 21 (List.replicate COLS 0) ++
      List.replicate 3 (0 :: List.replicate (COLS - 1) 1),
    score := 0, level := 2, lines := 10, high_level := 3, high_lines := 20,
    game_over := false, paused := false, current_type := .I,
    current_shape := [[1], [1], [1]], next_type := .I, x := 0, y := 21, saves := 0 }

/-- Witness for C6: clearing 3 rows at level 2 adds exactly 600 points. -/
theorem lock_piece_scoring_witness :
    (1 ≤ 3 →
      (Tetris.lock_piece lockWitnessState .I).score = lockWitnessState.score + 100 * 3 * lockWitnessState.level ∧
      (Tetris.lock_piece lockWitnessState .I).lines = lockWitnessState.lines + 3 ∧
      (Tetris.lock_piece lockWitnessState .I).level = 1 + (lockWitnessState.lines + 3) / 10) ∧
    (3 = 0 →
      (Tetris.lock_piece lockWitnessState .I).score = lockWitnessState.score ∧
      (Tetris.lock_piece lockWitnessState .I).lines = lockWitnessState.lines ∧
      (Tetris.lock_piece lockWitnessState .I).level = lockWitnessState.level) :=
  lock_piece_scoring lockWitnessState .I 3 (by decide)

-- ----------------- Spawn placement (C4, C5) -----------------

/-- Width of a shape matrix (`len(shape[0])`). -/
def shapeWidth (shape : List (List Nat)) : Nat := (shape.headD []).length

/-- The spawn row as the spec words it: `hiddenRowCount - shapeHeight`,
clamped to ≥ 0. -/
def spawnRow (shape : List (List Nat)) : Int :=
  max ((HIDDEN_ROWS : Int) - shape.length) 0

/-- The spawn column search order as the spec words it:
`[center, center-1, center+1, center-2, center+2, …]` restricted to the
columns `x` with `0 ≤ x ≤ COLS - shapeWidth`. -/
def specSpawnOrder (shape_width : Nat) : List Int :=
  let center : Int := Int.fdiv ((COLS : Int) - shape_width) 2
  (center :: (List.range' 1 COLS).flatMap
      (fun i => [center - (i : Int), center + (i : Int)])).filter
    (fun cx => decide (0 ≤ cx) && decide (cx ≤ (COLS : Int) - shape_width))

/-- The code's spawn row expression, evaluated per shape. -/
theorem spawnRow_eq (shape : List (List Nat)) :
    (if (HIDDEN_ROWS : Int) - shape.length < 0 then 0
     else (HIDDEN_ROWS : Int) - shape.length) = spawnRow shape := by
  unfold spawnRow
  split <;> omega

/-- When the spawn search succeeds, `spawn_new` places the piece there
and changes no counter, high score, flag or save. -/
theorem spawn_new_of_find_some (s : GameState) (d : PieceType) (sx : Int)
    (h : (Tetris.find_spawn_x_order ((SHAPES s.next_type).headD []).length).find?
        (fun cx => !(collide s.board (SHAPES s.next_type) cx
          (if (HIDDEN_ROWS : Int) - (SHAPES s.next_type).length < 0 then 0
           else (HIDDEN_ROWS : Int) - (SHAPES s.next_type).length))) = some sx) :
    (Tetris.spawn_new s d).x = sx ∧
    (Tetris.spawn_new s d).y = spawnRow (SHAPES s.next_type) ∧
    (Tetris.spawn_new s d).game_over = s.game_over ∧
    (Tetris.spawn_new s d).high_level = s.high_level ∧
    (Tetris.spawn_new s d).high_lines = s.high_lines ∧
    (Tetris.spawn_new s d).saves = s.saves := by
  simp only [Tetris.spawn_new]
  rw [h]
  exact ⟨rfl, spawnRow_eq _, rfl, rfl, rfl, rfl⟩

/-- When the spawn search fails, `spawn_new` ends the game, updates each
high counter that is strictly beaten, and saves iff one was. -/
theorem spawn_new_of_find_none (s : GameState) (d : PieceType)
    (h : (Tetris.find_spawn_x_order ((SHAPES s.next_type).headD []).length).find?
        (fun cx => !(collide s.board (SHAPES s.next_type) cx
          (if (HIDDEN_ROWS : Int) - (SHAPES s.next_type).length < 0 then 0
           else (HIDDEN_ROWS : Int) - (SHAPES s.next_type).length))) = none) :
    (Tetris.spawn_new s d).game_over = true ∧
    (Tetris.spawn_new s d).high_level =
      (if s.high_level < s.level then s.level else s.high_level) ∧
    (Tetris.spawn_new s d).high_lines =
      (if s.high_lines < s.lines then s.lines else s.high_lines) ∧
    (Tetris.spawn_new s d).saves =
      (if (decide (s.high_level < s.level) || decide (s.high_lines < s.lines)) = true
       then s.saves + 1 else s.saves) := by
  simp only [Tetris.spawn_new]
  rw [h]
  dsimp only
  refine ⟨?_, ?_, ?_, ?_⟩ <;> (split <;> rfl)

/-- For every catalog piece, the code's spawn search order is exactly
the spec's center-outward order. -/
theorem find_spawn_x_order_eq_spec (t : PieceType) :
    Tetris.find_spawn_x_order (shapeWidth (SHAPES t)) =
      specSpawnOrder (shapeWidth (SHAPES t)) := by
  cases t <;> decide

theorem mem_spawn_order_w4 (cx : Int) :
    cx ∈ Tetris.find_spawn_x_order 4 ↔ 0 ≤ cx ∧ cx ≤ 6 := by
  have e : Tetris.find_spawn_x_order 4 = [3, 2, 4, 1, 5, 0, 6] := by decide
  rw [e]
  simp only [List.mem_cons, List.not_mem_nil, or_false]
  omega

theorem mem_spawn_order_w3 (cx : Int) :
    cx ∈ Tetris.find_spawn_x_order 3 ↔ 0 ≤ cx ∧ cx ≤ 7 := by
  have e : Tetris.find_spawn_x_order 3 = [3, 2, 4, 1, 5, 0, 6, 7] := by decide
  rw [e]
  simp only [List.mem_cons, List.not_mem_nil, or_false]
  omega

theorem mem_spawn_order_w2 (cx : Int) :
    cx ∈ Tetris.find_spawn_x_order 2 ↔ 0 ≤ cx ∧ cx ≤ 8 := by
  have e : Tetris.find_spawn_x_order 2 = [4, 3, 5, 2, 6, 1, 7, 0, 8] := by decide
  rw [e]
  simp only [List.mem_cons, List.not_mem_nil, or_false]
  omega

/-- For every catalog piece, the spawn search order contains exactly the
columns of the valid range `[0, COLS - shapeWidth]`. -/
theorem mem_find_spawn_x_order (t : PieceType) (cx : Int) :
    cx ∈ Tetris.find_spawn_x_order (shapeWidth (SHAPES t)) ↔
      0 ≤ cx ∧ cx ≤ (COLS : Int) - shapeWidth (SHAPES t) := by
  cases t
  case I => exact mem_spawn_order_w4 cx
  case O => exact mem_spawn_order_w2 cx
  all_goals exact mem_spawn_order_w3 cx

/-- **C4.** Spawn placement is deterministic: the vertical anchor is
`HIDDEN_ROWS - shapeHeight` clamped to ≥ 0, the horizontal anchor is the
first collision-free column of the center-outward order
`[center, center-1, center+1, …]` restricted to valid columns, and the
code's search order equals that order. -/
theorem spawn_placement_deterministic (s : GameState) (d : PieceType) (sx : Int)
    (h : (specSpawnOrder (shapeWidth (SHAPES s.next_type))).find?
        (fun cx => !(collide s.board (SHAPES s.next_type) cx
          (spawnRow (SHAPES s.next_type)))) = some sx) :
    (Tetris.spawn_new s d).x = sx ∧
    (Tetris.spawn_new s d).y = spawnRow (SHAPES s.next_type) ∧
    Tetris.find_spawn_x_order (shapeWidth (SHAPES s.next_type)) =
      specSpawnOrder (shapeWidth (SHAPES s.next_type)) := by
  have e := find_spawn_x_order_eq_spec s.next_type
  have hs := spawn_new_of_find_some s d sx (by
    have e' : Tetris.find_spawn_x_order ((SHAPES s.next_type).headD []).length =
        specSpawnOrder ((SHAPES s.next_type).headD []).length := by
      simpa only [shapeWidth] using e
    rw [e']
    simpa only [← spawnRow_eq, shapeWidth] using h)
  exact ⟨hs.1, hs.2.1, e⟩

/-- A fresh state about to spawn a J piece on an empty board. -/
def spawnWitnessState : GameState :=
  { board := new_board, score := 0, level := 1, lines := 0, high_level := 0,
    high_lines := 0, game_over := false, paused := false, current_type := .J,
    current_shape := SHAPES .J, next_type := .J, x := 0, y := 0, saves := 0 }

/-- Witness for C4: on an empty board the J piece spawns at the centered
column 3, row 1. -/
theorem spawn_placement_deterministic_witness :
    (Tetris.spawn_new spawnWitnessState .I).x = 3 ∧
    (Tetris.spawn_new spawnWitnessState .I).y = spawnRow (SHAPES spawnWitnessState.next_type) ∧
    Tetris.find_spawn_x_order (shapeWidth (SHAPES spawnWitnessState.next_type)) =
      specSpawnOrder (shapeWidth (SHAPES spawnWitnessState.next_type)) :=
  spawn_placement_deterministic spawnWitnessState .I 3 (by decide)

/-- **C5.** Spawn transitions to GameOver exactly when no valid column
admits a collision-free placement at the computed spawn row; on that
transition each strictly beaten high counter is updated, and the save is
invoked iff one of them was. -/
theorem spawn_game_over_spec (s : GameState) (d : PieceType) (h0 : s.game_over = false) :
    ((Tetris.spawn_new s d).game_over = true ↔
      ∀ cx : Int, 0 ≤ cx → cx ≤ (COLS : Int) - shapeWidth (SHAPES s.next_type) →
        collide s.board (SHAPES s.next_type) cx (spawnRow (SHAPES s.next_type)) = true) ∧
    ((Tetris.spawn_new s d).game_over = true →
      (Tetris.spawn_new s d).high_level =
        (if s.high_level < s.level then s.level else s.high_level) ∧
      (Tetris.spawn_new s d).high_lines =
        (if s.high_lines < s.lines then s.lines else s.high_lines) ∧
      ((Tetris.spawn_new s d).saves = s.saves + 1 ↔
        (s.high_level < s.level ∨ s.high_lines < s.lines))) := by
  rcases hf : (Tetris.find_spawn_x_order ((SHAPES s.next_type).headD []).length).find?
      (fun cx => !(collide s.board (SHAPES s.next_type) cx
        (if (HIDDEN_ROWS : Int) - (SHAPES s.next_type).length < 0 then 0
         else (HIDDEN_ROWS : Int) - (SHAPES s.next_type).length))) with _ | sx
  · obtain ⟨hgo, hhl, hhn, hsv⟩ := spawn_new_of_find_none s d hf
    constructor
    · rw [hgo]
      simp only [true_iff]
      intro cx h1 h2
      have hmem : cx ∈ Tetris.find_spawn_x_order ((SHAPES s.next_type).headD []).length := by
        have hm := (mem_find_spawn_x_order s.next_type cx).2 ⟨h1, h2⟩
        simpa only [shapeWidth] using hm
      have hnp := List.find?_eq_none.mp hf cx hmem
      rw [← spawnRow_eq]
      cases hcb : collide s.board (SHAPES s.next_type) cx
          (if (HIDDEN_ROWS : Int) - (SHAPES s.next_type).length < 0 then 0
           else (HIDDEN_ROWS : Int) - (SHAPES s.next_type).length) with
      | true => rfl
      | false => exact absurd (by rw [hcb]; rfl) hnp
    · intro _
      refine ⟨hhl, hhn, ?_⟩
      rw [hsv]
      by_cases hc : s.high_level < s.level ∨ s.high_lines < s.lines
      · have hb : (decide (s.high_level < s.level) || decide (s.high_lines < s.lines)) = true := by
          simpa only [Bool.or_eq_true, decide_eq_true_eq] using hc
        rw [if_pos hb]
        exact iff_of_true rfl hc
      · have hb : ¬((decide (s.high_level < s.level) || decide (s.high_lines < s.lines)) = true) := by
          simpa only [Bool.or_eq_true, decide_eq_true_eq] using hc
        rw [if_neg hb]
        exact iff_of_false (by omega) hc
  · obtain ⟨hx, hy, hgo, hhl, hhn, hsv⟩ := spawn_new_of_find_some s d sx hf
    constructor
    · rw [hgo, h0]
      constructor
      · intro hfalse; exact absurd hfalse (by simp)
      · intro hall
        exfalso
        have hmem := List.mem_of_find?_eq_some hf
        have hmem' : 0 ≤ sx ∧ sx ≤ (COLS : Int) - shapeWidth (SHAPES s.next_type) :=
          (mem_find_spawn_x_order s.next_type sx).1 (by simpa only [shapeWidth] using hmem)
        have hpred := List.find?_some hf
        have hcol := hall sx hmem'.1 hmem'.2
        rw [spawnRow_eq, hcol] at hpred
        exact absurd hpred (by simp)
    · intro hgo2
      rw [hgo, h0] at hgo2
      exact absurd hgo2 (by simp)

/-- A state whose board is completely full: no piece can spawn. -/
def gameOverWitnessState : GameState :=
  { board := List.replicate TOTAL_ROWS (List.replicate COLS 1),
    score := 0, level := 1, lines := 0, high_level := 0, high_lines := 0,
    game_over := false, paused := false, current_type := .I,
    current_shape := SHAPES .I, next_type := .I, x := 0, y := 0, saves := 0 }

/-- Witness for C5 on a completely full board. -/
theorem spawn_game_over_spec_witness :
    ((Tetris.spawn_new gameOverWitnessState .I).game_over = true ↔
      ∀ cx : Int, 0 ≤ cx →
        cx ≤ (COLS : Int) - shapeWidth (SHAPES gameOverWitnessState.next_type) →
        collide gameOverWitnessState.board (SHAPES gameOverWitnessState.next_type) cx
          (spawnRow (SHAPES gameOverWitnessState.next_type)) = true) ∧
    ((Tetris.spawn_new gameOverWitnessState .I).game_over = true →
      (Tetris.spawn_new gameOverWitnessState .I).high_level =
        (if gameOverWitnessState.high_level < gameOverWitnessState.level then
          gameOverWitnessState.level else gameOverWitnessState.high_level) ∧
      (Tetris.spawn_new gameOverWitnessState .I).high_lines =
        (if gameOverWitnessState.high_lines < gameOverWitnessState.lines then
          gameOverWitnessState.lines else gameOverWitnessState.high_lines) ∧
      ((Tetris.spawn_new gameOverWitnessState .I).saves = gameOverWitnessState.saves + 1 ↔
        (gameOverWitnessState.high_level < gameOverWitnessState.level ∨
          gameOverWitnessState.high_lines < gameOverWitnessState.lines))) :=
  spawn_game_over_spec gameOverWitnessState .I rfl

-- ----------------- Falling and termination (C8, C10) -----------------

/-- A shape with a nonzero cell collides as soon as its offset row is at
or below the bottom of the grid. -/
theorem collide_of_nonzero_below (board shape : List (List Nat)) (offX offY : Int)
    (hnz : ∃ r ∈ shape, ∃ c ∈ r, c ≠ 0) (hY : (TOTAL_ROWS : Int) ≤ offY) :
    collide board shape offX offY = true := by
  rw [collide_eq_true_iff]
  obtain ⟨r, hr, c, hc, hcne⟩ := hnz
  obtain ⟨sy, hsy, hrow⟩ := List.mem_iff_getElem.mp hr
  obtain ⟨sx, hsx, hcell⟩ := List.mem_iff_getElem.mp hc
  have hgd : shape.getD sy [] = r := by rw [List.getD_eq_getElem shape [] hsy, hrow]
  refine ⟨sy, hsy, sx, ?_, ?_, ?_⟩
  · rw [hgd]; exact hsx
  · rw [hgd, List.getD_eq_getElem r 0 hsx, hcell]; exact hcne
  · right; right; left; omega

/-- Once the descent guard fires within `n` steps, any fuel of at least
`n` computes the same final row. -/
theorem descend_stable (board shape : List (List Nat)) (offX : Int) :
    ∀ (n f : Nat) (y : Int),
      (∃ k, k ≤ n ∧ collide board shape offX (y + k + 1) = true) → n ≤ f →
      Tetris.descend board shape offX f y = Tetris.descend board shape offX n y := by
  intro n
  induction n with
  | zero =>
    intro f y h hf
    obtain ⟨k, hk, hcol⟩ := h
    interval_cases k
    cases f with
    | zero => rfl
    | succ f' =>
      simp only [Tetris.descend]
      rw [if_pos (by simpa using hcol)]
  | succ n ih =>
    intro f y h hf
    obtain ⟨f', rfl⟩ : ∃ f', f = f' + 1 := ⟨f - 1, by omega⟩
    simp only [Tetris.descend]
    cases hcb : collide board shape offX (y + 1) with
    | true => rfl
    | false =>
      obtain ⟨k, hk, hcol⟩ := h
      have hk0 : k ≠ 0 := by
        rintro rfl
        rw [show y + (0 : Nat) + 1 = y + 1 by omega, hcb] at hcol
        exact Bool.false_ne_true hcol
      obtain ⟨k', rfl⟩ : ∃ k', k = k' + 1 := ⟨k - 1, by omega⟩
      have hcol' : collide board shape offX (y + 1 + k' + 1) = true := by
        rw [show y + 1 + (k' : Int) + 1 = y + ((k' + 1 : Nat) : Int) + 1 by push_cast; ring]
        exact hcol
      exact ih f' (y + 1) ⟨k', by omega, hcol'⟩ (by omega)

/-- Iterating `soft_drop` until it reports "locked" is a descent
followed by a lock, provided the guard fires within the fuel. -/
theorem soft_until_eq_lock_descend (d : PieceType) :
    ∀ (f : Nat) (s : GameState),
      (∃ k, k ≤ f ∧ collide s.board s.current_shape s.x (s.y + k + 1) = true) →
      Tetris.soft_drop_until_locked d (f + 1) s =
        Tetris.lock_piece { s with y := Tetris.descend s.board s.current_shape s.x f s.y } d := by
  intro f
  induction f with
  | zero =>
    intro s h
    obtain ⟨k, hk, hcol⟩ := h
    interval_cases k
    have hcol1 : collide s.board s.current_shape s.x (s.y + 1) = true := by simpa using hcol
    simp only [Tetris.soft_drop_until_locked, Tetris.soft_drop, hcol1, Bool.not_true,
      Bool.false_eq_true, if_false, Tetris.descend]
  | succ f ih =>
    intro s h
    cases hcb : collide s.board s.current_shape s.x (s.y + 1) with
    | true =>
      have hd : Tetris.descend s.board s.current_shape s.x (f + 1) s.y = s.y := by
        simp [Tetris.descend, hcb]
      simp only [Tetris.soft_drop_until_locked, Tetris.soft_drop, hcb, Bool.not_true,
        Bool.false_eq_true, if_false]
      rw [hd]
    | false =>
      obtain ⟨k, hk, hcol⟩ := h
      have hk0 : k ≠ 0 := by
        rintro rfl
        rw [show s.y + (0 : Nat) + 1 = s.y + 1 by omega, hcb] at hcol
        exact Bool.false_ne_true hcol
      obtain ⟨k', rfl⟩ : ∃ k', k = k' + 1 := ⟨k - 1, by omega⟩
      have hcol' : collide s.board s.current_shape s.x (s.y + 1 + k' + 1) = true := by
        rw [show s.y + 1 + (k' : Int) + 1 = s.y + ((k' + 1 : Nat) : Int) + 1 by push_cast; ring]
        exact hcol
      have hstep : Tetris.soft_drop_until_locked d (f + 1 + 1) s =
          Tetris.soft_drop_until_locked d (f + 1) { s with y := s.y + 1 } := by
        conv_lhs => rw [Tetris.soft_drop_until_locked]
        simp [Tetris.soft_drop, hcb]
      have hd : Tetris.descend s.board s.current_shape s.x (f + 1) s.y =
          Tetris.descend s.board s.current_shape s.x f (s.y + 1) := by
        conv_lhs => rw [Tetris.descend]
        simp [hcb]
      rw [hstep, ih { s with y := s.y + 1 } ⟨k', by omega, hcol'⟩, hd]

/-- **C8.** For every engine state whose active shape has a nonzero cell
and whose row anchor is nonnegative (both hold in every reachable state
with an active piece), `hard_drop` produces exactly the state obtained by
applying `soft_drop` repeatedly until it reports "locked". -/
theorem hard_drop_eq_repeated_soft_drop (s : GameState) (d : PieceType)
    (hnz : ∃ r ∈ s.current_shape, ∃ c ∈ r, c ≠ 0) (hy : 0 ≤ s.y) :
    Tetris.soft_drop_until_locked d (TOTAL_ROWS + 1) s = Tetris.hard_drop s d := by
  have hcol : collide s.board s.current_shape s.x (s.y + (TOTAL_ROWS : Nat) + 1) = true :=
    collide_of_nonzero_below _ _ _ _ hnz (by omega)
  rw [soft_until_eq_lock_descend d TOTAL_ROWS s ⟨TOTAL_ROWS, le_refl _, hcol⟩]
  rfl

/-- Witness for C8: a fresh game with an O piece. -/
theorem hard_drop_eq_repeated_soft_drop_witness :
    Tetris.soft_drop_until_locked .O (TOTAL_ROWS + 1) (Tetris.init 0 0 .O .O) =
      Tetris.hard_drop (Tetris.init 0 0 .O .O) .O :=
  hard_drop_eq_repeated_soft_drop (Tetris.init 0 0 .O .O) .O (by decide) (by decide)

/-- **C10.** If the shape has a nonzero cell, the descending loop of
`hard_drop` terminates: the guard fires after some `n` steps and any
fuel beyond `n` computes the same final row, so `hard_drop` is a total
function.  With an all-zero shape the guard never fires and the loop
would Tetris.descend forever (`Tetris.descend` consumes all its fuel). -/
theorem hard_drop_descent_terminates (board shape : List (List Nat)) (offX offY : Int) :
    ((∃ r ∈ shape, ∃ c ∈ r, c ≠ 0) →
      ∃ n : Nat, collide board shape offX (offY + n + 1) = true ∧
        ∀ f : Nat, n ≤ f →
          Tetris.descend board shape offX f offY = Tetris.descend board shape offX n offY) ∧
    ((∀ r ∈ shape, ∀ c ∈ r, c = 0) →
      (∀ n : Nat, collide board shape offX (offY + n + 1) = false) ∧
      (∀ f : Nat, Tetris.descend board shape offX f offY = offY + f)) := by
  constructor
  · intro hnz
    refine ⟨((TOTAL_ROWS : Int) - offY).toNat, ?_, ?_⟩
    · refine collide_of_nonzero_below _ _ _ _ hnz ?_
      have := Int.self_le_toNat ((TOTAL_ROWS : Int) - offY)
      omega
    · intro f hf
      refine descend_stable board shape offX _ f offY ⟨_, le_refl _, ?_⟩ hf
      refine collide_of_nonzero_below _ _ _ _ hnz ?_
      have := Int.self_le_toNat ((TOTAL_ROWS : Int) - offY)
      omega
  · intro hz
    have hnocol : ∀ y : Int, collide board shape offX y = false := by
      intro y
      cases hcb : collide board shape offX y with
      | false => rfl
      | true =>
        exfalso
        obtain ⟨sy, hsy, sx, hsx, hcell, -⟩ := (collide_eq_true_iff board shape offX y).mp hcb
        have hrmem : shape.getD sy [] ∈ shape := by
          rw [List.getD_eq_getElem shape [] hsy]
          exact List.getElem_mem hsy
        have hcmem : (shape.getD sy []).getD sx 0 ∈ shape.getD sy [] := by
          rw [List.getD_eq_getElem (shape.getD sy []) 0 hsx]
          exact List.getElem_mem hsx
        exact hcell (hz _ hrmem _ hcmem)
    refine ⟨fun n => hnocol _, ?_⟩
    intro f
    induction f generalizing offY with
    | zero => simp [Tetris.descend]
    | succ f ihf =>
      simp only [Tetris.descend, hnocol (offY + 1), Bool.false_eq_true, if_false]
      rw [ihf (offY + 1)]
      push_cast
      ring

/-- Witness for C10: a one-cell shape terminates its descent on the
empty board; the all-zero 1×1 shape never does. -/
theorem hard_drop_descent_terminates_witness :
    (∃ n : Nat, collide new_board [[1]] 0 ((0 : Int) + n + 1) = true ∧
      ∀ f : Nat, n ≤ f →
        Tetris.descend new_board [[1]] 0 f 0 = Tetris.descend new_board [[1]] 0 n 0) ∧
    ((∀ n : Nat, collide new_board [[0]] 0 ((0 : Int) + n + 1) = false) ∧
      (∀ f : Nat, Tetris.descend new_board [[0]] 0 f 0 = (0 : Int) + f)) :=
  ⟨(hard_drop_descent_terminates new_board [[1]] 0 0).1 (by decide),
   (hard_drop_descent_terminates new_board [[0]] 0 0).2 (by decide)⟩

-- ----------------- Pause and GameOver (C7) -----------------

set_option maxRecDepth 100000 in
/-- **C7 counterexample.**  A reachable state with status GameOver from
which a single command (the reset key) transitions the game to status
Paused: stack 23 I pieces until spawning fails, press `P` (the pause key
is not gated on game over, so the paused flag flips while the status
stays GameOver), then press `R` (reset clears `game_over` but not
`paused`). -/
theorem pause_gameover_counterexample :
    (status (runMain (List.replicate 23 (MainCmd.keySpace .I) ++ [MainCmd.keyP])
        (Tetris.init 0 0 .I .I)),
      status (stepMain (MainCmd.keyR .I)
        (runMain (List.replicate 23 (MainCmd.keySpace .I) ++ [MainCmd.keyP])
          (Tetris.init 0 0 .I .I)))) =
      (Status.gameOver, Status.paused) := by
  decide

/-- **C7 (amended).**  The pause key toggles Running ↔ Paused, and every
command other than reset keeps a GameOver state at status GameOver (the
pause key still flips the internal paused flag there, which is why a
later reset can land in Paused). -/
theorem pause_toggle_gameover_terminal (s : GameState) (c : MainCmd) :
    (status s = .running → status (stepMain .keyP s) = .paused) ∧
    (status s = .paused → status (stepMain .keyP s) = .running) ∧
    (status s = .gameOver → (∀ d, c ≠ MainCmd.keyR d) →
      status (stepMain c s) = .gameOver) := by
  refine ⟨?_, ?_, ?_⟩
  · intro h1
    have hgo : s.game_over = false := by
      cases hg : s.game_over
      · rfl
      · simp [status, hg] at h1
    have hp : s.paused = false := by
      cases hq : s.paused
      · rfl
      · simp [status, hgo, hq] at h1
    simp [status, stepMain, hgo, hp]
  · intro h2
    have hgo : s.game_over = false := by
      cases hg : s.game_over
      · rfl
      · simp [status, hg] at h2
    have hp : s.paused = true := by
      cases hq : s.paused
      · simp [status, hgo, hq] at h2
      · rfl
    simp [status, stepMain, hgo, hp]
  · intro h3 hnr
    have hgo : s.game_over = true := by
      cases hg : s.game_over
      · cases hq : s.paused <;> simp [status, hg, hq] at h3
      · rfl
    cases c with
    | keyR d => exact absurd rfl (hnr d)
    | keyD => exact h3
    | keyS => simp [status, stepMain, hgo]
    | keyP => simp [status, stepMain, hgo]
    | keyLeft => simp [status, stepMain, hgo]
    | keyRight => simp [status, stepMain, hgo]
    | keyUp => simp [status, stepMain, hgo]
    | keyDown d => simp [status, stepMain, hgo]
    | keySpace d => simp [status, stepMain, hgo]
    | tick d => simp [status, stepMain, hgo]

/-- Witness for the amended C7 at a concrete state and command. -/
theorem pause_toggle_gameover_terminal_witness :
    (status (Tetris.init 0 0 .I .I) = .running →
      status (stepMain .keyP (Tetris.init 0 0 .I .I)) = .paused) ∧
    (status (Tetris.init 0 0 .I .I) = .paused →
      status (stepMain .keyP (Tetris.init 0 0 .I .I)) = .running) ∧
    (status (Tetris.init 0 0 .I .I) = .gameOver → (∀ d, MainCmd.keyD ≠ MainCmd.keyR d) →
      status (stepMain MainCmd.keyD (Tetris.init 0 0 .I .I)) = .gameOver) :=
  pause_toggle_gameover_terminal (Tetris.init 0 0 .I .I) MainCmd.keyD

/-- Witness for C2 on the spec's own example: rows 2 and 5 full, the
rest partially filled. -/
theorem clear_lines_spec_witness :
    (clear_lines exampleBoard).2 =
      (exampleBoard.filter fun row => !(row.any fun cell => cell == 0)).length ∧
    (clear_lines exampleBoard).1.length = TOTAL_ROWS ∧
    (clear_lines exampleBoard).1 =
      List.replicate (clear_lines exampleBoard).2 (List.replicate COLS 0) ++
        exampleBoard.filter (fun row => row.any fun cell => cell == 0) :=
  clear_lines_spec exampleBoard (by decide)
